import Mathlib

/-!
Shallow embedding of the gclone packed-bundle decoder, delta resolver and
content-addressed object store (source: main.go, final revision), together
with theorems settling the frozen claims about the program.

Conventions of the embedding:
  - Go byte slices are List Nat (bytes are values below 256).
  - Go strings (object-kind names, hex OIDs, file paths) are also List Nat,
    the UTF-8 bytes of the string; all strings involved are ASCII.
  - The filesystem under .git/objects is an association list from path bytes
    to file bytes; os.WriteFile overwrites, os.ReadFile is lookup.
  - zlib compression and decompression are external library calls; they are
    taken as explicit function parameters, with the inverse property assumed
    where a theorem needs it.  Likewise the streaming decompressor used by
    parsePackfile is a parameter returning the decompressed bytes together
    with the number of compressed input bytes it consumed.
  - Go int64 arithmetic is Nat with explicit reduction modulo 2^64 at the
    operations where the source can overflow.
  - Loops are encoded as structural recursion; where the Go loop consumes a
    variable number of bytes per iteration a fuel argument bounded by the
    input length makes the recursion structural (the fuel never runs out on
    the calls the program makes).
  - A Go runtime panic from an out-of-range index or slice is modelled as
    the Option value none.
-/

set_option maxRecDepth 1000000

namespace GClone

/-! ### SHA-1 (crypto/sha1), executable -/

def m32 : Nat := 4294967296

def w64 : Nat := 18446744073709551616

def rotl (n x : Nat) : Nat := ((x <<< n) ||| (x >>> (32 - n))) % m32

def be8 (n : Nat) : List Nat :=
  [(n >>> 56) % 256, (n >>> 48) % 256, (n >>> 40) % 256, (n >>> 32) % 256,
   (n >>> 24) % 256, (n >>> 16) % 256, (n >>> 8) % 256, n % 256]

def be4 (n : Nat) : List Nat :=
  [(n >>> 24) % 256, (n >>> 16) % 256, (n >>> 8) % 256, n % 256]

def sha1Pad (msg : List Nat) : List Nat :=
  msg ++ 128 :: List.replicate ((119 - msg.length % 64) % 64) 0 ++ be8 (msg.length * 8)

def toBlocksGo : Nat → List Nat → List (List Nat)
  | 0, _ => []
  | _, [] => []
  | fuel + 1, l => l.take 64 :: toBlocksGo fuel (l.drop 64)

def toBlocks (l : List Nat) : List (List Nat) := toBlocksGo l.length l

def toWords : List Nat → List Nat
  | b0 :: b1 :: b2 :: b3 :: rest =>
      (((b0 % 256) <<< 24) ||| ((b1 % 256) <<< 16) ||| ((b2 % 256) <<< 8) ||| (b3 % 256))
        :: toWords rest
  | _ => []

def extendW (w : List Nat) : Nat → List Nat
  | 0 => w
  | k + 1 =>
      extendW (w ++ [rotl 1 (w.getD (w.length - 3) 0 ^^^ w.getD (w.length - 8) 0 ^^^
        w.getD (w.length - 14) 0 ^^^ w.getD (w.length - 16) 0)]) k

def roundsGo : List Nat → Nat → Nat → Nat → Nat → Nat → Nat → Nat × Nat × Nat × Nat × Nat
  | [], _, a, b, c, d, e => (a, b, c, d, e)
  | w :: rest, i, a, b, c, d, e =>
      let f :=
        if i < 20 then (b &&& c) ||| ((b ^^^ (m32 - 1)) &&& d)
        else if i < 40 then b ^^^ c ^^^ d
        else if i < 60 then (b &&& c) ||| (b &&& d) ||| (c &&& d)
        else b ^^^ c ^^^ d
      let k :=
        if i < 20 then 0x5A827999
        else if i < 40 then 0x6ED9EBA1
        else if i < 60 then 0x8F1BBCDC
        else 0xCA62C1D6
      let temp := (rotl 5 a + f + e + k + w) % m32
      roundsGo rest (i + 1) temp a (rotl 30 b) c d

def sha1Block (h : Nat × Nat × Nat × Nat × Nat) (block : List Nat) :
    Nat × Nat × Nat × Nat × Nat :=
  let ws := extendW (toWords block) 64
  match h with
  | (h0, h1, h2, h3, h4) =>
    match roundsGo ws 0 h0 h1 h2 h3 h4 with
    | (a, b, c, d, e) =>
        ((h0 + a) % m32, (h1 + b) % m32, (h2 + c) % m32, (h3 + d) % m32, (h4 + e) % m32)

def sha1 (msg : List Nat) : List Nat :=
  match (toBlocks (sha1Pad msg)).foldl sha1Block
      (0x67452301, 0xEFCDAB89, 0x98BADCFE, 0x10325476, 0xC3D2E1F0) with
  | (a, b, c, d, e) => be4 a ++ be4 b ++ be4 c ++ be4 d ++ be4 e

/-! ### Decimal rendering (fmt %d) and parsing (strconv.Atoi) -/

def natToDecGo : Nat → Nat → List Nat
  | 0, _ => []
  | fuel + 1, n => if n < 10 then [48 + n] else natToDecGo fuel (n / 10) ++ [48 + n % 10]

/-- Decimal digits of n in ASCII, the result of fmt.Sprintf with the %d verb. -/
def natToDec (n : Nat) : List Nat := natToDecGo (n + 1) n

def decVal (l : List Nat) : Nat := l.foldl (fun a d => a * 10 + (d - 48)) 0

def isDigit (d : Nat) : Bool := 48 ≤ d && d < 58

/-- Model of strconv.Atoi on the bytes of a string: optional sign, then at
least one decimal digit, rejecting values outside the int64 range. -/
def atoiB : List Nat → Option Int
  | [] => none
  | c :: rest =>
    let neg : Bool := c == 45
    let ds : List Nat := if c == 45 || c == 43 then rest else c :: rest
    if ds.isEmpty then none
    else if ds.all isDigit then
      let v := decVal ds
      if neg then (if v ≤ 2 ^ 63 then some (-(v : Int)) else none)
      else (if v < 2 ^ 63 then some (v : Int) else none)
    else none

/-! ### Hex encoding (encoding/hex, lowercase) -/

def hexDigit (n : Nat) : Nat := if n < 10 then 48 + n else 87 + n

def hexEncode (l : List Nat) : List Nat :=
  l.flatMap (fun b => [hexDigit (b / 16 % 16), hexDigit (b % 16)])

/-! ### bytes.IndexByte followed by slicing around the found byte -/

def splitAtFirst (b : Nat) : List Nat → Option (List Nat × List Nat)
  | [] => none
  | x :: xs =>
      if x = b then some ([], xs)
      else match splitAtFirst b xs with
        | none => none
        | some (p, q) => some (x :: p, q)

/-! ### Error kinds (one constructor per distinct error site used here) -/

inductive Err where
  | checksumErr
  | tooShort
  | badMagic
  | eofErr
  | sizeTooLarge
  | badType (t : Nat)
  | inflateErr
  | sizeMismatch
  | readFileErr
  | decompressErr
  | noNulErr
  | noSpaceErr
  | atoiErr
  | sizeHeaderMismatch
  | copyRangeErr
  | instSizeErr
  | panicErr
  | srcSizeMismatch
  | trgSizeMismatch
deriving DecidableEq, Repr

/-! ### Object kinds (objTypeNames) -/

def OBJ_COMMIT : Nat := 1
def OBJ_TREE : Nat := 2
def OBJ_BLOB : Nat := 3
def OBJ_TAG : Nat := 4
def OBJ_OFS_DELTA : Nat := 6
def OBJ_REF_DELTA : Nat := 7

def kindCommit : List Nat := [99, 111, 109, 109, 105, 116]
def kindTree : List Nat := [116, 114, 101, 101]
def kindBlob : List Nat := [98, 108, 111, 98]
def kindRefDelta : List Nat := [114, 101, 102, 95, 100, 101, 108, 116, 97]

/-- The kind-name map of the source; commit, tree, blob and ref_delta only. -/
def objTypeNames (t : Nat) : Option (List Nat) :=
  if t = OBJ_COMMIT then some kindCommit
  else if t = OBJ_TREE then some kindTree
  else if t = OBJ_BLOB then some kindBlob
  else if t = OBJ_REF_DELTA then some kindRefDelta
  else none

/-! ### Object store (.git/objects), writeObject and readObject -/

abbrev Store : Type := List (List Nat × List Nat)

def storeGet (s : Store) (p : List Nat) : Option (List Nat) :=
  match s with
  | [] => none
  | (q, v) :: rest => if q = p then some v else storeGet rest p

def storeWrite (s : Store) (p v : List Nat) : Store :=
  (p, v) :: s.filter (fun e => !(e.1 == p))

def dotGitObjects : List Nat :=
  [46, 103, 105, 116, 47, 111, 98, 106, 101, 99, 116, 115, 47]

/-- filepath.Join(".git/objects", hash[:2]) joined with hash[2:]. -/
def objPath (hash : List Nat) : List Nat :=
  dotGitObjects ++ hash.take 2 ++ 47 :: hash.drop 2

/-- The canonical framed serialization written by writeObject:
"kind SP decimal-size NUL payload". -/
def frame (objType content : List Nat) : List Nat :=
  objType ++ 32 :: (natToDec content.length ++ 0 :: content)

/-- The OID hex string writeObject derives for its content, the SHA-1 of the
framed serialization. -/
def oidOf (objType content : List Nat) : List Nat :=
  hexEncode (sha1 (frame objType content))

/-- writeObject: frame, hash, compress, store at the sharded path.  The
filesystem never fails in the model, so no error case remains. -/
def writeObject (compress : List Nat → List Nat) (store : Store)
    (content objType : List Nat) : Store :=
  storeWrite store (objPath (oidOf objType content)) (compress (frame objType content))

/-- readObject: read the shard file, decompress, split at the first NUL,
split the header at the first space, parse the decimal size, check it. -/
def readObject (decompress : List Nat → Option (List Nat)) (store : Store)
    (hash : List Nat) : Except Err (List Nat × List Nat) :=
  match storeGet store (objPath hash) with
  | none => .error .readFileErr
  | some fileBytes =>
    match decompress fileBytes with
    | none => .error .decompressErr
    | some objContent =>
      match splitAtFirst 0 objContent with
      | none => .error .noNulErr
      | some (header, content) =>
        match splitAtFirst 32 header with
        | none => .error .noSpaceErr
        | some (objType, sizeBytes) =>
          match atoiB sizeBytes with
          | none => .error .atoiErr
          | some size =>
            if size = (content.length : Int) then .ok (content, objType)
            else .error .sizeHeaderMismatch

/-! ### The two object-record size decoders, extracted from the two source
revisions of parsePackfile.  The first revision accumulates the varint tail
into the running size with Go +=, the final revision with Go |=; both first
take the low four bits of the header byte and then shift tail bytes by
4, 11, 18, ...  int64 wrap-around is modelled by reducing modulo 2^64. -/

def tailAdd : List Nat → Nat → Nat → Nat → Except Err (Nat × Nat)
  | [], _, _, _ => .error .eofErr
  | b :: rest, shift, value, off =>
      if 60 < shift then .error .sizeTooLarge
      else
        let value2 := (value + ((b % 128) <<< shift) % w64) % w64
        if b &&& 128 = 0 then .ok (value2, off + 1)
        else tailAdd rest (shift + 7) value2 (off + 1)

def tailOr : List Nat → Nat → Nat → Nat → Except Err (Nat × Nat)
  | [], _, _, _ => .error .eofErr
  | b :: rest, shift, value, off =>
      if 60 < shift then .error .sizeTooLarge
      else
        let value2 := (value ||| ((b % 128) <<< shift) % w64) % w64
        if b &&& 128 = 0 then .ok (value2, off + 1)
        else tailOr rest (shift + 7) value2 (off + 1)

/-- Size decoder of the earlier source revision (+= accumulation).  Returns
the decoded size and the number of bytes consumed, header byte included. -/
def decodeSizeAdd : List Nat → Except Err (Nat × Nat)
  | [] => .error .eofErr
  | b :: rest =>
      if b &&& 128 ≠ 0 then tailAdd rest 4 (b &&& 15) 1 else .ok (b &&& 15, 1)

/-- Size decoder of the final source revision (|= accumulation). -/
def decodeSizeOr : List Nat → Except Err (Nat × Nat)
  | [] => .error .eofErr
  | b :: rest =>
      if b &&& 128 ≠ 0 then tailOr rest 4 (b &&& 15) 1 else .ok (b &&& 15, 1)

/-! ### parseVarInt (the delta base/target size decoder, Varint-B) -/

def parseVarIntGo : List Nat → Nat → Nat → Nat → Except Err (Nat × Nat)
  | [], _, _, _ => .error .eofErr
  | b :: rest, shift, value, off =>
      if 60 < shift then .error .sizeTooLarge
      else
        let value2 := value ||| ((b % 128) <<< shift) % w64
        if b &&& 128 = 0 then .ok (value2, off + 1)
        else parseVarIntGo rest (shift + 7) value2 (off + 1)

def parseVarInt (data : List Nat) : Except Err (Nat × Nat) :=
  parseVarIntGo data 0 0 0

/-! ### Delta instruction stream (parseInstructions) -/

def INST_TYPE_ADD : Nat := 0
def INST_TYPE_COPY : Nat := 1

structure Instruction where
  instType : Nat
  size : Nat
  offset : Nat
  data : List Nat
deriving DecidableEq, Repr

/-- The operand-byte loop of the copy branch: for i below n, when bit i of
bits is set consume the next stream byte shifted left by 8*i and or it into
the accumulator; an exhausted stream is the Go index-out-of-range panic. -/
def readSelGo (bits : Nat) : Nat → Nat → Nat → List Nat → Option (Nat × List Nat)
  | _, 0, v, data => some (v, data)
  | i, k + 1, v, data =>
      if bits &&& (1 <<< i) ≠ 0 then
        match data with
        | [] => none
        | b :: rest => readSelGo bits (i + 1) k (v ||| (b <<< (8 * i))) rest
      else readSelGo bits (i + 1) k v data

def readSel (bits n : Nat) (data : List Nat) : Option (Nat × List Nat) :=
  readSelGo bits 0 n 0 data

/-- Specification-side restatement of the same assembly, following the words
of the claim: the value is the sum of the selectively present little-endian
bytes, byte for bit i weighted by 2^(8*i). -/
def specSelGo (bits : Nat) : Nat → Nat → Nat → List Nat → Option (Nat × List Nat)
  | _, 0, v, data => some (v, data)
  | i, k + 1, v, data =>
      if bits &&& (1 <<< i) ≠ 0 then
        match data with
        | [] => none
        | b :: rest => specSelGo bits (i + 1) k (v + b * 2 ^ (8 * i)) rest
      else specSelGo bits (i + 1) k v data

def specSel (bits n : Nat) (data : List Nat) : Option (Nat × List Nat) :=
  specSelGo bits 0 n 0 data

/-- parseInstructions, fuelled: one opcode byte per iteration, so any fuel
above the data length is enough.  none models a Go slice/index panic. -/
def parseInstsGo : Nat → List Nat → Option (List Instruction × Nat)
  | 0, _ => none
  | _ + 1, [] => some ([], 0)
  | fuel + 1, b :: rest =>
      if b &&& 128 ≠ 0 then
        match readSel (b &&& 15) 4 rest with
        | none => none
        | some (offv, rest1) =>
          match readSel ((b >>> 4) &&& 7) 3 rest1 with
          | none => none
          | some (szv, rest2) =>
            let sz := if szv = 0 then 65536 else szv
            match parseInstsGo fuel rest2 with
            | none => none
            | some (insts, c) =>
                some (⟨INST_TYPE_COPY, sz, offv, []⟩ :: insts,
                  1 + (rest.length - rest2.length) + c)
      else
        let n := b &&& 127
        if rest.length < n then none
        else
          match parseInstsGo fuel (rest.drop n) with
          | none => none
          | some (insts, c) => some (⟨INST_TYPE_ADD, n, 0, rest.take n⟩ :: insts, 1 + n + c)

def parseInstructions (data : List Nat) : Option (List Instruction × Nat) :=
  parseInstsGo (data.length + 1) data

/-! ### Delta records and the resolver (processRefDeltaObjs) -/

structure Delta where
  hash : List Nat
  data : List Nat
deriving DecidableEq, Repr

/-- The instruction-application loop inside processRefDeltaObjs, producing
the target bytes from the base bytes. -/
def applyInsts (src : List Nat) : List Instruction → Except Err (List Nat)
  | [] => .ok []
  | inst :: rest =>
      if inst.instType = INST_TYPE_COPY then
        if src.length < inst.offset + inst.size then .error .copyRangeErr
        else
          match applyInsts src rest with
          | .error e => .error e
          | .ok t => .ok ((src.drop inst.offset).take inst.size ++ t)
      else
        if inst.size ≠ inst.data.length then .error .instSizeErr
        else
          match applyInsts src rest with
          | .error e => .error e
          | .ok t => .ok (inst.data ++ t)

/-- processRefDeltaObjs: a single pass over the delta list in order; parse the
two varint sizes, read the base object from the store, check the base size,
parse and apply the instruction stream, check the target size, write the
target under the base object kind.  Any failure aborts immediately. -/
def processRefDeltaObjs (compress : List Nat → List Nat)
    (decompress : List Nat → Option (List Nat)) (store : Store) :
    List Delta → Except Err Store
  | [] => .ok store
  | d :: ds =>
      match parseVarInt d.data with
      | .error e => .error e
      | .ok (srcSize, read1) =>
        match parseVarInt (d.data.drop read1) with
        | .error e => .error e
        | .ok (trgSize, read2) =>
          match readObject decompress store d.hash with
          | .error e => .error e
          | .ok (srcContent, objType) =>
            if srcContent.length ≠ srcSize then .error .srcSizeMismatch
            else
              match parseInstructions (d.data.drop (read1 + read2)) with
              | none => .error .panicErr
              | some (insts, _) =>
                match applyInsts srcContent insts with
                | .error e => .error e
                | .ok trgContent =>
                  if trgContent.length ≠ trgSize then .error .trgSizeMismatch
                  else
                    processRefDeltaObjs compress decompress
                      (writeObject compress store trgContent objType) ds

/-! ### Bundle header checks and parsePackfile (final revision) -/

def getObjectsCount (pack : List Nat) : Except Err Nat :=
  if pack.length < 12 then .error .tooShort
  else if pack.take 4 ≠ [80, 65, 67, 75] then .error .badMagic
  else .ok (pack.getD 8 0 * 16777216 + pack.getD 9 0 * 65536 +
    pack.getD 10 0 * 256 + pack.getD 11 0)

def verifyChecksum (pack : List Nat) : Bool :=
  if pack.length < 20 then false
  else decide (sha1 (pack.take (pack.length - 20)) = pack.drop (pack.length - 20))

/-- The per-record loop of parsePackfile over the working slice (header and
trailing hash already removed), iterating the declared object count.  The
inflate parameter stands for driving the zlib stream reader to completion:
it returns the decompressed bytes and the number of input bytes consumed,
none standing for a zlib error. -/
def parseRecords (compress : List Nat → List Nat)
    (inflate : List Nat → Option (List Nat × Nat)) (pack : List Nat) :
    Store → Nat → Nat → List Delta → Store × Except Err (List Delta)
  | store, _, 0, deltas => (store, .ok deltas)
  | store, off, n + 1, deltas =>
      if pack.length ≤ off then (store, .error .eofErr)
      else
        let byt := pack.getD off 0
        let objType := (byt >>> 4) &&& 7
        match objTypeNames objType with
        | none => (store, .error (.badType objType))
        | some tname =>
          match decodeSizeOr (pack.drop off) with
          | .error e => (store, .error e)
          | .ok (objSize, consumed) =>
            let off1 := off + consumed
            match (if objType = OBJ_REF_DELTA then
                    (if pack.length < off1 + 20 then none
                     else some ((pack.drop off1).take 20, off1 + 20))
                   else some ([], off1) : Option (List Nat × Nat)) with
            | none => (store, .error .eofErr)
            | some (refDeltaHash, off2) =>
              if pack.length ≤ off2 then (store, .error .eofErr)
              else
                match inflate (pack.drop off2) with
                | none => (store, .error .inflateErr)
                | some (raw, used) =>
                  if raw.length ≠ objSize then (store, .error .sizeMismatch)
                  else
                    if objType = OBJ_REF_DELTA then
                      parseRecords compress inflate pack store (off2 + used) n
                        (deltas ++ [⟨hexEncode refDeltaHash, raw⟩])
                    else
                      parseRecords compress inflate pack
                        (writeObject compress store raw tname) (off2 + used) n deltas

/-- parsePackfile: checksum first, then length/magic via getObjectsCount,
then the record loop over the slice with the 12-byte header and the 20-byte
trailing hash removed.  Returns the final store next to the result so that
the store at the moment of an error is observable. -/
def parsePackfile (compress : List Nat → List Nat)
    (inflate : List Nat → Option (List Nat × Nat)) (store : Store)
    (pack : List Nat) : Store × Except Err (List Delta) :=
  if verifyChecksum pack = false then (store, .error .checksumErr)
  else
    match getObjectsCount pack with
    | .error e => (store, .error e)
    | .ok objsCount =>
      parseRecords compress inflate ((pack.take (pack.length - 20)).drop 12)
        store 0 objsCount []

/-- A bundle assembled from a 12-byte header (magic, version, count) and a
record body, carrying its correct trailing SHA-1; the shape of every
checksum-valid wire bundle. -/
def mkBundle (hdr body : List Nat) : List Nat :=
  (hdr ++ body) ++ sha1 (hdr ++ body)

/-! ## Supporting lemmas -/

theorem sha1_length (msg : List Nat) : (sha1 msg).length = 20 := by
  unfold sha1
  rcases (toBlocks (sha1Pad msg)).foldl sha1Block
      (0x67452301, 0xEFCDAB89, 0x98BADCFE, 0x10325476, 0xC3D2E1F0) with ⟨a, b, c, d, e⟩
  simp [be4]

/-- Bits of a value below 2^s are disjoint from bits of a multiple of 2^s,
so or and addition agree. -/
theorem lor_disjoint {a s : Nat} (m : Nat) (h : a < 2 ^ s) :
    a ||| m * 2 ^ s = a + m * 2 ^ s := by
  calc a ||| m * 2 ^ s = 2 ^ s * m ||| a := by rw [Nat.lor_comm, Nat.mul_comm]
    _ = 2 ^ s * m + a := (Nat.mul_add_lt_is_or h m).symm
    _ = a + m * 2 ^ s := by rw [Nat.add_comm, Nat.mul_comm]

/-- A left shift truncated to 64 bits keeps a multiple of the shifted power. -/
theorem shiftLeft_mod_w64 (m shift : Nat) (hs : shift ≤ 64) :
    (m <<< shift) % w64 = m % 2 ^ (64 - shift) * 2 ^ shift := by
  have h64 : w64 = 2 ^ (64 - shift) * 2 ^ shift := by
    rw [← Nat.pow_add, Nat.sub_add_cancel hs]; rfl
  rw [Nat.shiftLeft_eq, h64, Nat.mul_mod_mul_right]

theorem tail_add_eq_or :
    ∀ (rest : List Nat) (shift value off : Nat),
      value < 2 ^ shift ∨ 60 < shift →
      tailAdd rest shift value off = tailOr rest shift value off := by
  intro rest
  induction rest with
  | nil => intro shift value off _; rfl
  | cons b rest ih =>
    intro shift value off hv
    unfold tailAdd tailOr
    by_cases hs : 60 < shift
    · simp [hs]
    · have hs' : shift ≤ 60 := by omega
      have hvlt : value < 2 ^ shift := hv.resolve_right hs
      have hc : ((b % 128) <<< shift) % w64 = b % 128 % 2 ^ (64 - shift) * 2 ^ shift :=
        shiftLeft_mod_w64 _ _ (by omega)
      have key : value + ((b % 128) <<< shift) % w64
          = value ||| ((b % 128) <<< shift) % w64 := by
        rw [hc, lor_disjoint _ hvlt]
      have hnext : (value ||| ((b % 128) <<< shift) % w64) % w64 < 2 ^ (shift + 7) ∨
          60 < shift + 7 := by
        by_cases hsm : shift ≤ 53
        · left
          have hm : b % 128 % 2 ^ (64 - shift) ≤ 127 :=
            Nat.le_trans (Nat.mod_le _ _) (by omega)
          have hmul : b % 128 % 2 ^ (64 - shift) * 2 ^ shift ≤ 127 * 2 ^ shift :=
            Nat.mul_le_mul_right (2 ^ shift) hm
          have hpp : 2 ^ (shift + 7) = 128 * 2 ^ shift := by
            rw [Nat.pow_add, Nat.mul_comm]
          have : value ||| ((b % 128) <<< shift) % w64 < 2 ^ (shift + 7) := by
            rw [← key, hc, hpp]
            omega
          exact Nat.lt_of_le_of_lt (Nat.mod_le _ _) this
        · right; omega
      rw [key]
      simp only [hs, if_false]
      by_cases hb : b &&& 128 = 0
      · simp [hb]
      · simp only [hb, if_false]
        exact ih _ _ _ hnext

theorem natToDecGo_digits :
    ∀ (fuel n : Nat), n < fuel → ∀ d ∈ natToDecGo fuel n, 48 ≤ d ∧ d < 58 := by
  intro fuel
  induction fuel with
  | zero => intro n h; omega
  | succ fuel ih =>
    intro n h d hd
    by_cases h10 : n < 10
    · simp [natToDecGo, h10] at hd
      omega
    · simp only [natToDecGo, if_neg h10] at hd
      rcases List.mem_append.mp hd with h1 | h2
      · have hdiv : n / 10 < n := Nat.div_lt_self (by omega) (by omega)
        exact ih (n / 10) (by omega) d h1
      · have := Nat.mod_lt n (show 0 < 10 by omega)
        simp at h2
        omega

theorem natToDecGo_ne_nil :
    ∀ (fuel n : Nat), n < fuel → natToDecGo fuel n ≠ [] := by
  intro fuel
  cases fuel with
  | zero => intro n h; omega
  | succ fuel =>
    intro n _
    by_cases h10 : n < 10 <;> simp [natToDecGo, h10]

theorem decVal_append_single (l : List Nat) (d : Nat) :
    decVal (l ++ [d]) = decVal l * 10 + (d - 48) := by
  simp [decVal, List.foldl_append]

theorem decVal_natToDecGo :
    ∀ (fuel n : Nat), n < fuel → decVal (natToDecGo fuel n) = n := by
  intro fuel
  induction fuel with
  | zero => intro n h; omega
  | succ fuel ih =>
    intro n h
    by_cases h10 : n < 10
    · simp [natToDecGo, h10, decVal]
    · have hdiv : n / 10 < n := Nat.div_lt_self (by omega) (by omega)
      rw [natToDecGo, if_neg h10, decVal_append_single, ih (n / 10) (by omega)]
      have := Nat.div_add_mod n 10
      omega

theorem natToDec_digits (n : Nat) : ∀ d ∈ natToDec n, 48 ≤ d ∧ d < 58 :=
  natToDecGo_digits (n + 1) n (Nat.lt_succ_self n)

theorem natToDec_ne_nil (n : Nat) : natToDec n ≠ [] :=
  natToDecGo_ne_nil (n + 1) n (Nat.lt_succ_self n)

theorem decVal_natToDec (n : Nat) : decVal (natToDec n) = n :=
  decVal_natToDecGo (n + 1) n (Nat.lt_succ_self n)

theorem zero_not_mem_natToDec (n : Nat) : 0 ∉ natToDec n := fun h => by
  have := natToDec_digits n 0 h; omega

theorem space_not_mem_natToDec (n : Nat) : 32 ∉ natToDec n := fun h => by
  have := natToDec_digits n 32 h; omega

theorem atoiB_natToDec (n : Nat) (h : n < 2 ^ 63) :
    atoiB (natToDec n) = some (n : Int) := by
  obtain ⟨d, rest, hd⟩ : ∃ d rest, natToDec n = d :: rest := by
    cases hnd : natToDec n with
    | nil => exact absurd hnd (natToDec_ne_nil n)
    | cons d rest => exact ⟨d, rest, rfl⟩
  have hdig := natToDec_digits n d (by rw [hd]; exact List.mem_cons_self _ _)
  have h45 : d ≠ 45 := by omega
  have h43 : d ≠ 43 := by omega
  have hall : (d :: rest).all isDigit = true := by
    rw [← hd, List.all_eq_true]
    intro x hx
    have := natToDec_digits n x hx
    simp [isDigit]
    omega
  have hval : decVal (d :: rest) = n := by rw [← hd]; exact decVal_natToDec n
  rw [hd]
  simp [atoiB, h45, h43, hall, hval, h]
  omega

theorem splitAtFirst_append {b : Nat} :
    ∀ (h t : List Nat), b ∉ h → splitAtFirst b (h ++ b :: t) = some (h, t) := by
  intro h
  induction h with
  | nil => intro t _; simp [splitAtFirst]
  | cons x xs ih =>
    intro t hmem
    have hx : x ≠ b := fun hc => hmem (hc ▸ List.mem_cons_self x xs)
    have hxs : b ∉ xs := fun hc => hmem (List.mem_cons_of_mem x hc)
    simp only [List.cons_append, splitAtFirst, if_neg hx, List.append_eq, ih t hxs]

theorem splitAtFirst_none {b : Nat} :
    ∀ l : List Nat, b ∉ l → splitAtFirst b l = none := by
  intro l
  induction l with
  | nil => intro _; rfl
  | cons x xs ih =>
    intro hmem
    have hx : x ≠ b := fun hc => hmem (hc ▸ List.mem_cons_self x xs)
    have hxs : b ∉ xs := fun hc => hmem (List.mem_cons_of_mem x hc)
    simp only [splitAtFirst, if_neg hx, ih hxs]

theorem storeGet_storeWrite_self (s : Store) (p v : List Nat) :
    storeGet (storeWrite s p v) p = some v := by
  unfold storeWrite storeGet
  rw [if_pos rfl]

theorem storeWrite_storeWrite_self (s : Store) (p v : List Nat) :
    storeWrite (storeWrite s p v) p v = storeWrite s p v := by
  unfold storeWrite
  congr 1
  rw [List.filter_cons]
  simp [List.filter_filter]

/-- Core readObject evaluation on a well-framed stored object: the kind is
returned as found, with no check that it is a recognized kind. -/
theorem readObject_framed (decompress : List Nat → Option (List Nat))
    (store : Store) (hash kindB content fileB : List Nat)
    (hstore : storeGet store (objPath hash) = some fileB)
    (hdec : decompress fileB = some (frame kindB content))
    (h0 : 0 ∉ kindB) (h32 : 32 ∉ kindB) (hlen : content.length < 2 ^ 63) :
    readObject decompress store hash = .ok (content, kindB) := by
  have hsplit0 : splitAtFirst 0 (frame kindB content)
      = some (kindB ++ 32 :: natToDec content.length, content) := by
    have hshape : frame kindB content
        = (kindB ++ 32 :: natToDec content.length) ++ 0 :: content := by
      simp [frame]
    rw [hshape]
    apply splitAtFirst_append
    intro hmem
    rcases List.mem_append.mp hmem with h1 | h2
    · exact h0 h1
    · rcases List.mem_cons.mp h2 with h3 | h4
      · omega
      · exact zero_not_mem_natToDec _ h4
  have hsplit32 : splitAtFirst 32 (kindB ++ 32 :: natToDec content.length)
      = some (kindB, natToDec content.length) :=
    splitAtFirst_append _ _ h32
  have hatoi := atoiB_natToDec content.length hlen
  simp only [readObject, hstore, hdec, hsplit0, hsplit32, hatoi]
  simp

theorem readSelGo_eq_specSelGo (bits : Nat) :
    ∀ (k i v : Nat) (data : List Nat), v < 2 ^ (8 * i) →
      (∀ b ∈ data, b < 256) →
      readSelGo bits i k v data = specSelGo bits i k v data := by
  intro k
  induction k with
  | zero => intro i v data _ _; rfl
  | succ k ih =>
    intro i v data hv hbytes
    by_cases hsel : bits &&& (1 <<< i) ≠ 0
    · cases data with
      | nil => simp [readSelGo, specSelGo, hsel]
      | cons b rest =>
        have hb : b < 256 := hbytes b (List.mem_cons_self _ _)
        have hacc : v ||| (b <<< (8 * i)) = v + b * 2 ^ (8 * i) := by
          rw [Nat.shiftLeft_eq]
          exact lor_disjoint b hv
        have hnext : v + b * 2 ^ (8 * i) < 2 ^ (8 * (i + 1)) := by
          have hp : 2 ^ (8 * (i + 1)) = 256 * 2 ^ (8 * i) := by
            rw [show 8 * (i + 1) = 8 * i + 8 by ring, Nat.pow_add, Nat.mul_comm]
          have hmul : b * 2 ^ (8 * i) ≤ 255 * 2 ^ (8 * i) :=
            Nat.mul_le_mul_right _ (by omega)
          have hpos : 0 < 2 ^ (8 * i) := Nat.pos_pow_of_pos _ (by omega)
          omega
        simp only [readSelGo, specSelGo, if_pos hsel, hacc]
        exact ih (i + 1) _ rest hnext (fun x hx => hbytes x (List.mem_cons_of_mem _ hx))
    · simp only [readSelGo, specSelGo, if_neg hsel]
      have hv' : v < 2 ^ (8 * (i + 1)) :=
        Nat.lt_of_lt_of_le hv (Nat.pow_le_pow_right (by omega) (by omega))
      exact ih (i + 1) v data hv' hbytes

/-- The operand-byte loops return a suffix of their input stream. -/
theorem readSelGo_suffix (bits : Nat) :
    ∀ (k i v : Nat) (data : List Nat) (r : Nat) (rest' : List Nat),
      readSelGo bits i k v data = some (r, rest') → rest' <:+ data := by
  intro k
  induction k with
  | zero =>
    intro i v data r rest' h
    simp only [readSelGo] at h
    cases h
    exact List.suffix_refl _
  | succ k ih =>
    intro i v data r rest' h
    by_cases hsel : bits &&& (1 <<< i) ≠ 0
    · cases data with
      | nil => simp [readSelGo, hsel] at h
      | cons b rest =>
        simp only [readSelGo, if_pos hsel] at h
        exact (ih _ _ _ _ _ h).trans (List.suffix_cons b rest)
    · simp only [readSelGo, if_neg hsel] at h
      exact ih _ _ _ _ _ h

theorem specSelGo_suffix (bits : Nat) :
    ∀ (k i v : Nat) (data : List Nat) (r : Nat) (rest' : List Nat),
      specSelGo bits i k v data = some (r, rest') → rest' <:+ data := by
  intro k
  induction k with
  | zero =>
    intro i v data r rest' h
    simp only [specSelGo] at h
    cases h
    exact List.suffix_refl _
  | succ k ih =>
    intro i v data r rest' h
    by_cases hsel : bits &&& (1 <<< i) ≠ 0
    · cases data with
      | nil => simp [specSelGo, hsel] at h
      | cons b rest =>
        simp only [specSelGo, if_pos hsel] at h
        exact (ih _ _ _ _ _ h).trans (List.suffix_cons b rest)
    · simp only [specSelGo, if_neg hsel] at h
      exact ih _ _ _ _ _ h

theorem parseInstsGo_fuel :
    ∀ (f1 f2 : Nat) (data : List Nat), data.length < f1 → data.length < f2 →
      parseInstsGo f1 data = parseInstsGo f2 data := by
  intro f1
  induction f1 with
  | zero => intro f2 data h _; omega
  | succ f1 ih =>
    intro f2 data h1 h2
    cases f2 with
    | zero => omega
    | succ f2 =>
      cases data with
      | nil => rfl
      | cons b rest =>
        have hr : rest.length < f1 := by simp at h1; omega
        have hr2 : rest.length < f2 := by simp at h2; omega
        simp only [parseInstsGo]
        by_cases hb : b &&& 128 ≠ 0
        · rw [if_pos hb, if_pos hb]
          split
          next => rfl
          next offv rest1 heq =>
            split
            next => rfl
            next szv rest2 heq2 =>
              have hl1 : rest1.length ≤ rest.length :=
                (readSelGo_suffix _ _ _ _ _ _ _ heq).length_le
              have hl2 : rest2.length ≤ rest1.length :=
                (readSelGo_suffix _ _ _ _ _ _ _ heq2).length_le
              rw [ih f2 rest2 (by omega) (by omega)]
        · rw [if_neg hb, if_neg hb]
          by_cases hlen : rest.length < (b &&& 127)
          · rw [if_pos hlen, if_pos hlen]
          · rw [if_neg hlen, if_neg hlen]
            have : (rest.drop (b &&& 127)).length ≤ rest.length := by
              rw [List.length_drop]; omega
            rw [ih f2 (rest.drop (b &&& 127)) (by omega) (by omega)]

/-- The loops of the copy branch agree with the specification-side
little-endian assembly whenever the stream holds genuine bytes. -/
theorem readSel_eq_specSel (bits n : Nat) (data : List Nat)
    (hbytes : ∀ b ∈ data, b < 256) :
    readSel bits n data = specSel bits n data :=
  readSelGo_eq_specSelGo bits n 0 0 data (by norm_num) hbytes

/-- Unfolding of parseInstructions at a copy opcode, with the operand
assembly expressed through the specification-side functions. -/
theorem parseInstructions_cons_copy
    (b : Nat) (rest : List Nat) (offv szv : Nat) (rest1 rest2 : List Nat)
    (hb : b &&& 128 ≠ 0)
    (hs1 : specSel (b &&& 15) 4 rest = some (offv, rest1))
    (hs2 : specSel ((b >>> 4) &&& 7) 3 rest1 = some (szv, rest2))
    (hbytes : ∀ x ∈ rest, x < 256) :
    parseInstructions (b :: rest) =
      match parseInstructions rest2 with
      | none => none
      | some (insts, c) =>
          some (⟨INST_TYPE_COPY, if szv = 0 then 65536 else szv, offv, []⟩ :: insts,
            1 + (rest.length - rest2.length) + c) := by
  have hsuf1 : rest1 <:+ rest := specSelGo_suffix _ _ _ _ _ _ _ hs1
  have hbytes1 : ∀ x ∈ rest1, x < 256 := fun x hx => hbytes x (hsuf1.subset hx)
  have hsuf2 : rest2 <:+ rest1 := specSelGo_suffix _ _ _ _ _ _ _ hs2
  have hr1 : readSel (b &&& 15) 4 rest = some (offv, rest1) := by
    rw [readSel_eq_specSel _ _ _ hbytes]
    exact hs1
  have hr2 : readSel ((b >>> 4) &&& 7) 3 rest1 = some (szv, rest2) := by
    rw [readSel_eq_specSel _ _ _ hbytes1]
    exact hs2
  have hfuel : parseInstsGo ((b :: rest).length) rest2 = parseInstructions rest2 := by
    have hl1 : rest1.length ≤ rest.length := hsuf1.length_le
    have hl2 : rest2.length ≤ rest1.length := hsuf2.length_le
    simp only [List.length_cons]
    exact parseInstsGo_fuel _ _ rest2 (by omega) (by omega)
  show parseInstsGo ((b :: rest).length + 1) (b :: rest) = _
  simp only [parseInstsGo, if_pos hb, hr1, hr2, hfuel]

theorem applyInsts_copy_cases
    (src : List Nat) (inst : Instruction) (rest : List Instruction)
    (hc : inst.instType = INST_TYPE_COPY) :
    (src.length < inst.offset + inst.size →
      applyInsts src (inst :: rest) = .error .copyRangeErr) ∧
    (inst.offset + inst.size ≤ src.length →
      applyInsts src (inst :: rest) =
        (match applyInsts src rest with
         | .error e => .error e
         | .ok t => .ok ((src.drop inst.offset).take inst.size ++ t)) ∧
      ((src.drop inst.offset).take inst.size).length = inst.size) := by
  constructor
  · intro h
    simp only [applyInsts, if_pos hc, if_pos h]
  · intro h
    constructor
    · simp only [applyInsts, if_pos hc, if_neg (Nat.not_lt.mpr h)]
    · rw [List.length_take, List.length_drop]
      omega

theorem verifyChecksum_mkBundle (hdr body : List Nat) :
    verifyChecksum (mkBundle hdr body) = true := by
  unfold verifyChecksum mkBundle
  rw [List.length_append, sha1_length, if_neg (by omega), Nat.add_sub_cancel,
    List.take_left, List.drop_left]
  exact decide_eq_true rfl

/-- parsePackfile on any checksum-correct bundle whose magic is PACK hands
the record body and the decoded big-endian count to the record loop,
whatever the four version bytes hold: the version field is dead. -/
theorem parsePackfile_mkBundle_records (compress : List Nat → List Nat)
    (inflate : List Nat → Option (List Nat × Nat)) (store : Store)
    (a b c d k1 k2 k3 k4 : Nat) (body : List Nat) :
    parsePackfile compress inflate store
        (mkBundle [80, 65, 67, 75, a, b, c, d, k1, k2, k3, k4] body)
      = parseRecords compress inflate body store 0
          (k1 * 16777216 + k2 * 65536 + k3 * 256 + k4) [] := by
  have hvc := verifyChecksum_mkBundle [80, 65, 67, 75, a, b, c, d, k1, k2, k3, k4] body
  have hlenT : (mkBundle [80, 65, 67, 75, a, b, c, d, k1, k2, k3, k4] body).length
      = body.length + 32 := by
    simp [mkBundle, sha1_length]
  have h8 : (mkBundle [80, 65, 67, 75, a, b, c, d, k1, k2, k3, k4] body).getD 8 0 = k1 := rfl
  have h9 : (mkBundle [80, 65, 67, 75, a, b, c, d, k1, k2, k3, k4] body).getD 9 0 = k2 := rfl
  have h10 : (mkBundle [80, 65, 67, 75, a, b, c, d, k1, k2, k3, k4] body).getD 10 0 = k3 := rfl
  have h11 : (mkBundle [80, 65, 67, 75, a, b, c, d, k1, k2, k3, k4] body).getD 11 0 = k4 := rfl
  have hgc : getObjectsCount (mkBundle [80, 65, 67, 75, a, b, c, d, k1, k2, k3, k4] body)
      = .ok (k1 * 16777216 + k2 * 65536 + k3 * 256 + k4) := by
    unfold getObjectsCount
    rw [hlenT, if_neg (by omega), if_neg (fun h => h rfl), h8, h9, h10, h11]
  have hbody : ((mkBundle [80, 65, 67, 75, a, b, c, d, k1, k2, k3, k4] body).take
        ((mkBundle [80, 65, 67, 75, a, b, c, d, k1, k2, k3, k4] body).length - 20)).drop 12
      = body := by
    unfold mkBundle
    rw [List.length_append, sha1_length, Nat.add_sub_cancel, List.take_left]
    exact List.drop_left' rfl
  unfold parsePackfile
  rw [if_neg (by simp [hvc]), hgc, hbody]

/-- A checksum-correct bundle whose first four bytes are not PACK fails with
the bad-magic error: the magic is checked after the checksum and before any
record. -/
theorem parsePackfile_mkBundle_badMagic (compress : List Nat → List Nat)
    (inflate : List Nat → Option (List Nat × Nat)) (store : Store)
    (w x y z a b c d k1 k2 k3 k4 : Nat) (body : List Nat)
    (hw : [w, x, y, z] ≠ [80, 65, 67, 75]) :
    parsePackfile compress inflate store
        (mkBundle [w, x, y, z, a, b, c, d, k1, k2, k3, k4] body)
      = (store, .error .badMagic) := by
  have hvc := verifyChecksum_mkBundle [w, x, y, z, a, b, c, d, k1, k2, k3, k4] body
  have hlenT : (mkBundle [w, x, y, z, a, b, c, d, k1, k2, k3, k4] body).length
      = body.length + 32 := by
    simp [mkBundle, sha1_length]
  have hm : (mkBundle [w, x, y, z, a, b, c, d, k1, k2, k3, k4] body).take 4
      = [w, x, y, z] := rfl
  have hgc : getObjectsCount (mkBundle [w, x, y, z, a, b, c, d, k1, k2, k3, k4] body)
      = .error .badMagic := by
    unfold getObjectsCount
    rw [hlenT, if_neg (by omega), hm, if_pos hw]
  unfold parsePackfile
  rw [if_neg (by simp [hvc]), hgc]

/-! ## Claim theorems -/

/-- C9: the two object-record size decoders present in the source, the
revision accumulating varint tail bytes with Go += and the revision
accumulating them with Go |=, return identical results (same size, same
consumed count, same errors) on every input byte sequence. -/
theorem c9_size_decoders_agree (data : List Nat) :
    decodeSizeAdd data = decodeSizeOr data := by
  cases data with
  | nil => rfl
  | cons b rest =>
    simp only [decodeSizeAdd, decodeSizeOr]
    by_cases hb : b &&& 128 ≠ 0
    · rw [if_pos hb, if_pos hb]
      exact tail_add_eq_or rest 4 (b &&& 15) 1
        (Or.inl (Nat.lt_of_le_of_lt Nat.and_le_right (by omega)))
    · rw [if_neg hb, if_neg hb]

theorem parseVarIntGo_ok_bounds :
    ∀ (data : List Nat) (off value v o : Nat),
      value < 2 ^ (7 * off) →
      parseVarIntGo data (7 * off) value off = .ok (v, o) →
      v < 2 ^ 63 ∧ off < o ∧ o ≤ 9 := by
  intro data
  induction data with
  | nil => intro off value v o _ h; exact absurd h (by simp [parseVarIntGo])
  | cons b rest ih =>
    intro off value v o hv h
    unfold parseVarIntGo at h
    by_cases hs : 60 < 7 * off
    · simp [hs] at h
    · have hoff : off ≤ 8 := by omega
      have hshift : 7 * off ≤ 56 := by omega
      have hcbound : ((b % 128) <<< (7 * off)) % w64 < 2 ^ (7 * off + 7) := by
        refine Nat.lt_of_le_of_lt (Nat.mod_le _ _) ?_
        rw [Nat.shiftLeft_eq]
        have hmul : b % 128 * 2 ^ (7 * off) ≤ 127 * 2 ^ (7 * off) :=
          Nat.mul_le_mul_right _ (by omega)
        have hpp : 2 ^ (7 * off + 7) = 128 * 2 ^ (7 * off) := by
          rw [Nat.pow_add, Nat.mul_comm]
        have hpos : 0 < 2 ^ (7 * off) := Nat.pos_pow_of_pos _ (by omega)
        omega
      have hv2 : (value ||| ((b % 128) <<< (7 * off)) % w64) < 2 ^ (7 * off + 7) :=
        Nat.or_lt_two_pow
          (Nat.lt_of_lt_of_le hv (Nat.pow_le_pow_right (by omega) (by omega))) hcbound
      simp only [hs, if_false] at h
      by_cases hb : b &&& 128 = 0
      · simp only [hb, if_true] at h
        have hvv : v = value ||| ((b % 128) <<< (7 * off)) % w64 := by
          cases h; rfl
        have hoo : o = off + 1 := by cases h; rfl
        refine ⟨?_, by omega, by omega⟩
        rw [hvv]
        exact Nat.lt_of_lt_of_le hv2 (Nat.pow_le_pow_right (by omega) (by omega))
      · simp only [hb, if_false] at h
        have h7 : 7 * off + 7 = 7 * (off + 1) := by ring
        rw [h7] at h hv2
        have := ih (off + 1) _ v o hv2 h
        exact ⟨this.1, by omega, this.2.2⟩

/-- C10: whenever parseVarInt succeeds, the decoded value fits in 63 bits
(the accepted shifts are 0, 7, ..., 56, so bit 63 of the int64 result is
never set and the value is non-negative) and the consumed byte count is
between 1 and 9; on all other inputs it returns an error value (the
function is total by construction). -/
theorem c10_parseVarInt_bounds (data : List Nat) (v off : Nat)
    (h : parseVarInt data = .ok (v, off)) :
    v < 2 ^ 63 ∧ 1 ≤ off ∧ off ≤ 9 := by
  have := parseVarIntGo_ok_bounds data 0 0 v off (by simp) h
  exact ⟨this.1, by omega, this.2.2⟩

/-- Witness for C10 at the concrete input with the single byte 5. -/
theorem c10_parseVarInt_bounds_witness :
    (5 : Nat) < 2 ^ 63 ∧ 1 ≤ 1 ∧ (1 : Nat) ≤ 9 :=
  c10_parseVarInt_bounds [5] 5 1 rfl

/-- C6: verifyChecksum pack is true exactly when pack is at least 20 bytes
long and the SHA-1 of all bytes but the last 20 equals those last 20 bytes;
and whenever it is false, parsePackfile stops with the checksum error and
the store is returned unchanged (no object was written). -/
theorem c6_checksum_gate :
    (∀ pack : List Nat, verifyChecksum pack = true ↔
      20 ≤ pack.length ∧
        sha1 (pack.take (pack.length - 20)) = pack.drop (pack.length - 20)) ∧
    (∀ (compress : List Nat → List Nat) (inflate : List Nat → Option (List Nat × Nat))
        (store : Store) (pack : List Nat), verifyChecksum pack = false →
      parsePackfile compress inflate store pack = (store, .error .checksumErr)) := by
  constructor
  · intro pack
    unfold verifyChecksum
    by_cases h : pack.length < 20
    · rw [if_pos h]
      constructor
      · intro hf; exact absurd hf (by simp)
      · intro hc; omega
    · rw [if_neg h]
      constructor
      · intro hp; exact ⟨by omega, of_decide_eq_true hp⟩
      · intro hc; exact decide_eq_true hc.2
  · intro compress inflate store pack h
    unfold parsePackfile
    rw [if_pos h]

/-- Witness for C6 at the empty pack, which fails the checksum. -/
theorem c6_checksum_gate_witness :
    (verifyChecksum [] = true ↔ 20 ≤ ([] : List Nat).length ∧
      sha1 (([] : List Nat).take (([] : List Nat).length - 20)) =
        ([] : List Nat).drop (([] : List Nat).length - 20)) ∧
    parsePackfile id (fun _ => none) [] [] = ([], .error .checksumErr) :=
  ⟨c6_checksum_gate.1 [], c6_checksum_gate.2 id (fun _ => none) [] [] rfl⟩

/-- C2: contrary to the claim, a bundle record of type 4 (tag) is rejected
by the decoder: OBJ_TAG is absent from objTypeNames, and parsePackfile on a
checksum-valid one-record bundle whose record header byte is 0x40 (type 4,
size 0) fails with the bad-object-type error instead of writing a tag
object.  This is the divergence the claim misses. -/
theorem c2_tag_record_rejected :
    objTypeNames OBJ_TAG = none ∧
    parsePackfile id (fun _ => none) []
        ([80, 65, 67, 75, 0, 0, 0, 2, 0, 0, 0, 1, 64] ++
          sha1 [80, 65, 67, 75, 0, 0, 0, 2, 0, 0, 0, 1, 64])
      = ([], .error (.badType 4)) :=
  ⟨rfl, rfl⟩

/-- C3 counterexample: a bundle whose version field is 3 (not 2) but whose
checksum is valid decodes successfully, returning an empty delta list; the
claimed version-field validation does not exist. -/
theorem c3_counterexample_version3_accepted :
    parsePackfile id (fun _ => none) []
        ([80, 65, 67, 75, 0, 0, 0, 3, 0, 0, 0, 0] ++
          sha1 [80, 65, 67, 75, 0, 0, 0, 3, 0, 0, 0, 0])
      = ([], .ok []) :=
  rfl

/-- C3 amended: parsePackfile checks the checksum first (any bundle failing
it reports the checksum error with the store unchanged regardless of its
other fields), then the 12-byte minimum and the PACK magic; the 4-byte
version field at offset 4 is never inspected.  For every version value,
object count and record body, a checksum-correct bundle decodes to exactly
the record loop run on that body with that count, so its records are
processed and its objects written exactly as with version 2 (conjuncts 1
and 2); a checksum failure aborts first with the store unchanged (conjunct
3); and with the checksum valid a non-PACK magic aborts with the bad-magic
error before any record (conjunct 4). -/
theorem c3_amended_version_never_checked :
    (∀ (compress : List Nat → List Nat) (inflate : List Nat → Option (List Nat × Nat))
        (store : Store) (a b c d k1 k2 k3 k4 : Nat) (body : List Nat),
      parsePackfile compress inflate store
          (mkBundle [80, 65, 67, 75, a, b, c, d, k1, k2, k3, k4] body)
        = parseRecords compress inflate body store 0
            (k1 * 16777216 + k2 * 65536 + k3 * 256 + k4) []) ∧
    (∀ (compress : List Nat → List Nat) (inflate : List Nat → Option (List Nat × Nat))
        (store : Store) (a b c d a' b' c' d' k1 k2 k3 k4 : Nat) (body : List Nat),
      parsePackfile compress inflate store
          (mkBundle [80, 65, 67, 75, a, b, c, d, k1, k2, k3, k4] body)
        = parsePackfile compress inflate store
            (mkBundle [80, 65, 67, 75, a', b', c', d', k1, k2, k3, k4] body)) ∧
    (∀ (compress : List Nat → List Nat) (inflate : List Nat → Option (List Nat × Nat))
        (store : Store) (pack : List Nat), verifyChecksum pack = false →
      parsePackfile compress inflate store pack = (store, .error .checksumErr)) ∧
    (∀ (compress : List Nat → List Nat) (inflate : List Nat → Option (List Nat × Nat))
        (store : Store) (w x y z a b c d k1 k2 k3 k4 : Nat) (body : List Nat),
      [w, x, y, z] ≠ [80, 65, 67, 75] →
      parsePackfile compress inflate store
          (mkBundle [w, x, y, z, a, b, c, d, k1, k2, k3, k4] body)
        = (store, .error .badMagic)) := by
  refine ⟨?_, ?_, ?_, ?_⟩
  · intro compress inflate store a b c d k1 k2 k3 k4 body
    exact parsePackfile_mkBundle_records compress inflate store a b c d k1 k2 k3 k4 body
  · intro compress inflate store a b c d a' b' c' d' k1 k2 k3 k4 body
    exact (parsePackfile_mkBundle_records compress inflate store
        a b c d k1 k2 k3 k4 body).trans
      (parsePackfile_mkBundle_records compress inflate store
        a' b' c' d' k1 k2 k3 k4 body).symm
  · intro compress inflate store pack h
    unfold parsePackfile
    rw [if_pos h]
  · intro compress inflate store w x y z a b c d k1 k2 k3 k4 body hw
    exact parsePackfile_mkBundle_badMagic compress inflate store
      w x y z a b c d k1 k2 k3 k4 body hw

/-- Witness for C3: a version-3 one-record bundle handed to the record loop,
the same non-empty body decoded identically under versions 3 and 2, a
checksum failure on the empty pack, and a bad-magic bundle. -/
theorem c3_amended_version_never_checked_witness :
    parsePackfile id (fun _ => none) []
        (mkBundle [80, 65, 67, 75, 0, 0, 0, 3, 0, 0, 0, 1] [64])
      = parseRecords id (fun _ => none) [64] [] 0
          (0 * 16777216 + 0 * 65536 + 0 * 256 + 1) [] ∧
    parsePackfile id (fun _ => none) []
        (mkBundle [80, 65, 67, 75, 0, 0, 0, 3, 0, 0, 0, 1] [64])
      = parsePackfile id (fun _ => none) []
          (mkBundle [80, 65, 67, 75, 0, 0, 0, 2, 0, 0, 0, 1] [64]) ∧
    parsePackfile id (fun _ => none) [] [] = ([], .error .checksumErr) ∧
    parsePackfile id (fun _ => none) []
        (mkBundle [0, 65, 67, 75, 0, 0, 0, 2, 0, 0, 0, 0] [])
      = ([], .error .badMagic) :=
  ⟨c3_amended_version_never_checked.1 id (fun _ => none) [] 0 0 0 3 0 0 0 1 [64],
    c3_amended_version_never_checked.2.1 id (fun _ => none) [] 0 0 0 3 0 0 0 2 0 0 0 1 [64],
    c3_amended_version_never_checked.2.2.1 id (fun _ => none) [] [] rfl,
    c3_amended_version_never_checked.2.2.2 id (fun _ => none) [] 0 65 67 75 0 0 0 2 0 0 0 0 []
      (by decide)⟩

/-- C1 amended: the delta resolver is a single pass in list order with no
retry queue; the moment the base object of the delta at the head of the
list is absent from the store, processRefDeltaObjs aborts with the read
error (after the two varint size parses, which come first in the source),
regardless of whether a later delta would have produced that base. -/
theorem c1_amended_single_pass
    (compress : List Nat → List Nat) (decompress : List Nat → Option (List Nat))
    (store : Store) (d : Delta) (ds : List Delta) (s1 r1 s2 r2 : Nat)
    (h1 : parseVarInt d.data = .ok (s1, r1))
    (h2 : parseVarInt (d.data.drop r1) = .ok (s2, r2))
    (h3 : storeGet store (objPath d.hash) = none) :
    processRefDeltaObjs compress decompress store (d :: ds) = .error .readFileErr := by
  simp only [processRefDeltaObjs, readObject, h1, h2, h3]

/-- Witness for C1 at a one-delta list whose base is absent from the empty
store. -/
theorem c1_amended_single_pass_witness :
    processRefDeltaObjs id some [] [⟨[], [0, 0]⟩] = .error .readFileErr :=
  c1_amended_single_pass id some [] ⟨[], [0, 0]⟩ [] 0 1 0 1 rfl rfl rfl

/-- The store produced by the decode phase in the C1 counterexample: one
full blob object with payload "a". -/
def baseStoreC1 : Store := writeObject id [] [97] kindBlob

/-- A ref-delta based on the full blob: copy one byte, insert one byte. -/
def d1C1 : Delta := ⟨oidOf kindBlob [97], [1, 2, 144, 1, 1, 98]⟩

/-- A ref-delta whose base is the target produced by d1C1. -/
def d2C1 : Delta := ⟨oidOf kindBlob [97, 98], [2, 1, 144, 1]⟩

/-- C1 counterexample: a self-contained delta chain (d2C1 is based on the
object produced by d1C1, which is based on a full object in the store)
resolves when listed in dependency order, but the same records listed with
the dependent delta first make processRefDeltaObjs fail immediately with
the read error; resolution does not succeed regardless of record order and
nothing is deferred to a retry queue. -/
theorem c1_counterexample_order_dependent :
    (processRefDeltaObjs id some baseStoreC1 [d1C1, d2C1]).isOk = true ∧
    processRefDeltaObjs id some baseStoreC1 [d2C1, d1C1] = .error .readFileErr :=
  ⟨rfl, rfl⟩

/-- C4: the instruction decoder performs none of the claimed validation.
An opcode byte 0 yields an insert instruction of size 0 with empty data,
accepted without any error; an insert opcode declaring one literal byte
with no byte following, or a copy opcode selecting an operand byte that is
missing, hits the out-of-range slice or index access (a Go runtime panic,
modelled as none) instead of returning a CorruptDelta error value. -/
theorem c4_no_corrupt_delta_validation :
    parseInstructions [0] = some ([⟨INST_TYPE_ADD, 0, 0, []⟩], 1) ∧
    parseInstructions [1] = none ∧
    parseInstructions [145] = none :=
  ⟨rfl, rfl, rfl⟩

/-- C7: for every object written by writeObject (with any kind free of NUL
and space bytes, as all kinds the program uses are, and a payload shorter
than 2^63 bytes), the assigned OID is the SHA-1 of the framed serialization
"kind SP size NUL payload"; the compressed framed bytes are stored at the
sharded path derived from the OID hex; readObject on that OID returns
exactly the payload and kind; and a second write of the same pair leaves
the store identical (same path, same bytes). -/
theorem c7_store_write_read_roundtrip
    (compress : List Nat → List Nat) (decompress : List Nat → Option (List Nat))
    (store : Store) (content objType : List Nat)
    (hinv : ∀ x, decompress (compress x) = some x)
    (h0 : 0 ∉ objType) (h32 : 32 ∉ objType) (hlen : content.length < 2 ^ 63) :
    oidOf objType content = hexEncode (sha1 (frame objType content)) ∧
    storeGet (writeObject compress store content objType)
        (objPath (oidOf objType content)) = some (compress (frame objType content)) ∧
    readObject decompress (writeObject compress store content objType)
        (oidOf objType content) = .ok (content, objType) ∧
    writeObject compress (writeObject compress store content objType) content objType
      = writeObject compress store content objType := by
  refine ⟨rfl, ?_, ?_, ?_⟩
  · exact storeGet_storeWrite_self _ _ _
  · exact readObject_framed decompress _ _ _ _ _
      (storeGet_storeWrite_self _ _ _) (hinv _) h0 h32 hlen
  · exact storeWrite_storeWrite_self _ _ _

/-- Witness for C7 with the identity codec, the empty store, payload "a"
and kind blob. -/
theorem c7_store_write_read_roundtrip_witness :
    oidOf kindBlob [97] = hexEncode (sha1 (frame kindBlob [97])) ∧
    storeGet (writeObject id [] [97] kindBlob)
        (objPath (oidOf kindBlob [97])) = some (id (frame kindBlob [97])) ∧
    readObject some (writeObject id [] [97] kindBlob)
        (oidOf kindBlob [97]) = .ok ([97], kindBlob) ∧
    writeObject id (writeObject id [] [97] kindBlob) [97] kindBlob
      = writeObject id [] [97] kindBlob :=
  c7_store_write_read_roundtrip id some [] [97] kindBlob (fun _ => rfl)
    (by decide) (by decide) (by decide)

/-- C8 counterexample: readObject accepts an object file whose header names
the unrecognized kind "weird": the stored framed bytes "weird 3 NUL abc"
are returned as payload [97, 98, 99] with kind [119, 101, 105, 114, 100],
with no recognized-kind check. -/
theorem c8_counterexample_unknown_kind_accepted :
    readObject some
        [(objPath (List.replicate 40 97), [119, 101, 105, 114, 100, 32, 51, 0, 97, 98, 99])]
        (List.replicate 40 97)
      = .ok ([97, 98, 99], [119, 101, 105, 114, 100]) :=
  rfl

/-- C8 amended: readObject validates exactly the structural conditions: a
NUL byte must be present, the header before it must contain a space, the
bytes after the space must parse as a decimal equal to the payload length;
the kind before the space is returned as found, with no recognized-kind
check.  The four conjuncts: well-framed objects of an arbitrary kind are
accepted, a file without NUL fails, a header without space fails, and a
size field disagreeing with the payload length fails. -/
theorem c8_read_object_validation :
    (∀ (decompress : List Nat → Option (List Nat)) (store : Store)
        (hash kindB content fileB : List Nat),
      storeGet store (objPath hash) = some fileB →
      decompress fileB = some (frame kindB content) →
      0 ∉ kindB → 32 ∉ kindB → content.length < 2 ^ 63 →
      readObject decompress store hash = .ok (content, kindB)) ∧
    (∀ (decompress : List Nat → Option (List Nat)) (store : Store)
        (hash fileB raw : List Nat),
      storeGet store (objPath hash) = some fileB →
      decompress fileB = some raw → 0 ∉ raw →
      readObject decompress store hash = .error .noNulErr) ∧
    (∀ (decompress : List Nat → Option (List Nat)) (store : Store)
        (hash fileB hdr content : List Nat),
      storeGet store (objPath hash) = some fileB →
      decompress fileB = some (hdr ++ 0 :: content) →
      0 ∉ hdr → 32 ∉ hdr →
      readObject decompress store hash = .error .noSpaceErr) ∧
    (∀ (decompress : List Nat → Option (List Nat)) (store : Store)
        (hash fileB kindB content : List Nat) (m : Nat),
      storeGet store (objPath hash) = some fileB →
      decompress fileB = some ((kindB ++ 32 :: natToDec m) ++ 0 :: content) →
      0 ∉ kindB → 32 ∉ kindB → m < 2 ^ 63 → m ≠ content.length →
      readObject decompress store hash = .error .sizeHeaderMismatch) := by
  refine ⟨?_, ?_, ?_, ?_⟩
  · intro decompress store hash kindB content fileB hstore hdec h0 h32 hlen
    exact readObject_framed decompress store hash kindB content fileB hstore hdec h0 h32 hlen
  · intro decompress store hash fileB raw hstore hdec h0
    simp only [readObject, hstore, hdec, splitAtFirst_none raw h0]
  · intro decompress store hash fileB hdr content hstore hdec h0 h32
    simp only [readObject, hstore, hdec, splitAtFirst_append hdr content h0,
      splitAtFirst_none hdr h32]
  · intro decompress store hash fileB kindB content m hstore hdec h0 h32 hm hne
    have hsplit0 : splitAtFirst 0 ((kindB ++ 32 :: natToDec m) ++ 0 :: content)
        = some (kindB ++ 32 :: natToDec m, content) := by
      apply splitAtFirst_append
      intro hmem
      rcases List.mem_append.mp hmem with h1 | h2
      · exact h0 h1
      · rcases List.mem_cons.mp h2 with h3 | h4
        · omega
        · exact zero_not_mem_natToDec _ h4
    have hsplit32 : splitAtFirst 32 (kindB ++ 32 :: natToDec m)
        = some (kindB, natToDec m) := splitAtFirst_append _ _ h32
    have hatoi := atoiB_natToDec m hm
    have hif : ((m : Int) = (content.length : Int)) = False := by
      simp
      omega
    simp only [readObject, hstore, hdec, hsplit0, hsplit32, hatoi, hif, if_false]

/-- Witness for C8 applying each conjunct at a concrete store: a blob file,
a file of a single byte 1 (no NUL), a header [1] with no space, and a frame
declaring size 2 for a 1-byte payload. -/
theorem c8_read_object_validation_witness :
    readObject some [(objPath [97], frame kindBlob [97])] [97] = .ok ([97], kindBlob) ∧
    readObject some [(objPath [98], [1])] [98] = .error .noNulErr ∧
    readObject some [(objPath [99], [1] ++ 0 :: [5])] [99] = .error .noSpaceErr ∧
    readObject some [(objPath [100], (kindBlob ++ 32 :: natToDec 2) ++ 0 :: [97])] [100]
      = .error .sizeHeaderMismatch :=
  ⟨c8_read_object_validation.1 some _ [97] kindBlob [97] _ rfl rfl
      (by decide) (by decide) (by decide),
    c8_read_object_validation.2.1 some _ [98] _ [1] rfl rfl (by decide),
    c8_read_object_validation.2.2.1 some _ [99] _ [1] [5] rfl rfl
      (by decide) (by decide),
    c8_read_object_validation.2.2.2 some _ [100] _ kindBlob [97] 2 rfl rfl
      (by decide) (by decide) (by decide) (by decide)⟩

/-- C5: copy-instruction semantics.  (1) The operand assembly of the copy
branch equals the specification-side little-endian sum: up to four offset
bytes at positions 0, 8, 16, 24 selected by the low four opcode bits and up
to three size bytes at positions 0, 8, 16 selected by opcode bits 4..6
(specSel is that sum; readSel is the source loop).  (2) parseInstructions
on a copy opcode produces a copy instruction carrying exactly those values,
with an assembled size of 0 replaced by 0x10000.  (3) Applying a copy whose
range [offset, offset+size) exceeds the base length fails with the range
error; an in-range copy appends exactly the selected base slice, whose
length is exactly the instruction size (so a size-0x10000 copy appends
exactly 0x10000 base bytes). -/
theorem c5_copy_offset_size_assembly :
    (∀ (bits n : Nat) (data : List Nat), (∀ b ∈ data, b < 256) →
      readSel bits n data = specSel bits n data) ∧
    (∀ (b : Nat) (rest : List Nat) (offv szv : Nat) (rest1 rest2 : List Nat),
      b &&& 128 ≠ 0 →
      specSel (b &&& 15) 4 rest = some (offv, rest1) →
      specSel ((b >>> 4) &&& 7) 3 rest1 = some (szv, rest2) →
      (∀ x ∈ rest, x < 256) →
      parseInstructions (b :: rest) =
        match parseInstructions rest2 with
        | none => none
        | some (insts, c) =>
            some (⟨INST_TYPE_COPY, if szv = 0 then 65536 else szv, offv, []⟩ :: insts,
              1 + (rest.length - rest2.length) + c)) ∧
    (∀ (src : List Nat) (inst : Instruction) (rest : List Instruction),
      inst.instType = INST_TYPE_COPY →
      (src.length < inst.offset + inst.size →
        applyInsts src (inst :: rest) = .error .copyRangeErr) ∧
      (inst.offset + inst.size ≤ src.length →
        applyInsts src (inst :: rest) =
          (match applyInsts src rest with
           | .error e => .error e
           | .ok t => .ok ((src.drop inst.offset).take inst.size ++ t)) ∧
        ((src.drop inst.offset).take inst.size).length = inst.size)) :=
  ⟨readSel_eq_specSel, parseInstructions_cons_copy, applyInsts_copy_cases⟩

/-- Witness for C5: assembly on a concrete stream, a concrete copy opcode
0x91 with operand bytes 7 and 2, an out-of-range copy and an in-range copy
on the one-byte base [5]. -/
theorem c5_copy_offset_size_assembly_witness :
    readSel 15 4 [1, 2, 3, 4] = specSel 15 4 [1, 2, 3, 4] ∧
    parseInstructions [145, 7, 2] = some ([⟨INST_TYPE_COPY, 2, 7, []⟩], 3) ∧
    applyInsts [5] [⟨INST_TYPE_COPY, 5, 0, []⟩] = .error .copyRangeErr ∧
    applyInsts [5] [⟨INST_TYPE_COPY, 1, 0, []⟩] = .ok [5] ∧
    (([5] : List Nat).drop 0).take 1 = [5] :=
  ⟨c5_copy_offset_size_assembly.1 15 4 [1, 2, 3, 4] (by decide),
    (c5_copy_offset_size_assembly.2.1 145 [7, 2] 7 2 [2] [] (by decide) rfl rfl
      (by decide)).trans rfl,
    (c5_copy_offset_size_assembly.2.2 [5] ⟨INST_TYPE_COPY, 5, 0, []⟩ [] rfl).1
      (by decide),
    ((c5_copy_offset_size_assembly.2.2 [5] ⟨INST_TYPE_COPY, 1, 0, []⟩ [] rfl).2
      (by decide)).1.trans rfl,
    rfl⟩

end GClone
